import Mathlib

/-!
Shallow embedding of the Loreway dialogue engine
(src/src/narrative/DialogueSystem.cpp).

Modelling conventions:
* C++ `std::string` identifiers are Lean `String`; dialogue text that the
  realizer manipulates character by character is `List Char`.
* C++ `float`/`double` quantities (sliders, weights, timestamps) are `ℚ`.
* `std::unordered_map` registries are association lists with first-match
  lookup; an overwriting insert is modelled by consing the new binding in
  front, which is observationally equal for lookup.
* `std::unordered_set` fields of the context are `List String` with list
  membership.
* The `std::mt19937`-backed RNG is an explicit stream of draws
  (`RngStream`); each draw consumes the head of the corresponding stream,
  mirroring exactly when the C++ code consults the engine.  The value
  produced by `uniform_real_distribution(lo, hi)` is clamped into
  `[lo, hi]`, matching the distribution contract.
-/

namespace Loreway

/-- Rational addition routed through `mkRat` so that closed instances of the
engine evaluate by kernel reduction; equal to `+` (lemma `qAdd_eq`). -/
def qAdd (a b : ℚ) : ℚ := mkRat (a.num * b.den + b.num * a.den) (a.den * b.den)

/-- Rational subtraction routed through `mkRat`; equal to `-` (lemma
`qSub_eq`). -/
def qSub (a b : ℚ) : ℚ := mkRat (a.num * b.den - b.num * a.den) (a.den * b.den)

/-- Clamp `x` into `[lo, hi]` by comparisons (computable form of
`max lo (min hi x)` for lo ≤ hi). -/
def qClamp (lo hi x : ℚ) : ℚ := if x < lo then lo else if hi < x then hi else x

/-- Dialogue function categories (enum DialogueFunction). -/
inductive DialogueFunction
  | NeutralAmbient
  | Dread
  | Misdirection
  | RitualHint
  | Rumor
  | Bureaucratic
  | ThreatBark
  | Pain
  | Surprise
deriving DecidableEq

/-- Reliability metadata (enum ReliabilityTag). -/
inductive ReliabilityTag
  | Unknown
  | Truthful
  | Partial
  | KnownFalse
deriving DecidableEq

/-- Regional tone (enum RegionTone); ForestVillage is the baseline value. -/
inductive RegionTone
  | ForestVillage
  | SovietApartment
  | IndustrialBlock
  | BorderOutpost
deriving DecidableEq

/-- Speaker social role (enum SpeakerSocialRole). -/
inductive SpeakerSocialRole
  | Villager
  | Bureaucrat
  | Priest
  | Smuggler
  | Soldier
  | Doctor
  | Hermit
deriving DecidableEq

/-- World/narrative context for one selection (struct DialogueContext). -/
structure DialogueContext where
  regionTone : RegionTone := RegionTone.ForestVillage
  threatLevel01 : ℚ := 0
  isIndoors : Bool := false
  isNight : Bool := false
  playerRecentlyBrokeTaboo : Bool := false
  playerLowHealth : Bool := false
  playerIsBleeding : Bool := false
  inSafeRoomFlagged : Bool := false
  locationId : String := ""
  activeTabooIds : List String := []
  recentEventIds : List String := []
  knownRumorIds : List String := []

/-- Per-NPC voice configuration (struct NPCVoiceProfile). -/
structure NPCVoiceProfile where
  npcId : String := ""
  displayName : String := ""
  role : SpeakerSocialRole := SpeakerSocialRole.Villager
  verbosity01 : ℚ := mkRat 2 5
  superstition01 : ℚ := mkRat 4 5
  bureaucratic01 : ℚ := 0
  religiosity01 : ℚ := mkRat 3 10
  cruelty01 : ℚ := mkRat 1 5
  unreliability01 : ℚ := mkRat 2 5
  fatalism01 : ℚ := mkRat 7 10
  dialectTag : String := ""
  personalMotifs : List String := []
  cooldownSeconds : List (DialogueFunction × ℚ) :=
    [ (DialogueFunction.NeutralAmbient, 20)
    , (DialogueFunction.Dread, 15)
    , (DialogueFunction.Misdirection, 25)
    , (DialogueFunction.RitualHint, 45)
    , (DialogueFunction.Rumor, 40)
    , (DialogueFunction.Bureaucratic, 35)
    , (DialogueFunction.ThreatBark, 5)
    , (DialogueFunction.Pain, 3)
    , (DialogueFunction.Surprise, 8) ]

/-- One authored line template (struct DialogueTemplate). -/
structure DialogueTemplate where
  id : String := ""
  function : DialogueFunction := DialogueFunction.NeutralAmbient
  reliability : ReliabilityTag := ReliabilityTag.Unknown
  regionTone : RegionTone := RegionTone.ForestVillage
  requiredTabooIds : List String := []
  requiredEventIds : List String := []
  disallowedLocationIds : List String := []
  allowedRoles : List SpeakerSocialRole := []
  text : List Char := []
  weight : ℚ := 1
  condition : Option (DialogueContext → NPCVoiceProfile → Bool) := none

/-- Explicit stream of random draws standing in for the mt19937 engine. -/
structure RngStream where
  floats : List ℚ := []
  bools : List Bool := []
  ints : List Nat := []

/-- RNG.RandomFloat(lo, hi): consumes one float draw; the produced value is
clamped into the interval guaranteed by uniform_real_distribution. -/
def rngFloat (lo hi : ℚ) (s : RngStream) : ℚ × RngStream :=
  (qClamp lo hi (s.floats.headD lo), { s with floats := s.floats.tail })

/-- RNG.Chance(p): returns false for p ≤ 0 and true for p ≥ 1 without
consulting the engine; otherwise consumes one Bernoulli draw. -/
def rngChance (p : ℚ) (s : RngStream) : Bool × RngStream :=
  if p ≤ 0 then (false, s)
  else if 1 ≤ p then (true, s)
  else (s.bools.headD false, { s with bools := s.bools.tail })

/-- RNG.RandomInt(lo, hi): consumes one integer draw, reduced into the
interval guaranteed by uniform_int_distribution (lo ≤ hi assumed). -/
def rngInt (lo hi : Nat) (s : RngStream) : Nat × RngStream :=
  (lo + (s.ints.headD 0) % (hi + 1 - lo), { s with ints := s.ints.tail })

/-- First-match association-list lookup (std::unordered_map::find). -/
def assocLookup {κ ν : Type} [DecidableEq κ] (key : κ) : List (κ × ν) → Option ν
  | [] => none
  | (k, v) :: rest => if k = key then some v else assocLookup key rest

/-- DialogueSystem::MapTriggerToFunction. -/
def mapTriggerToFunction (triggerTag : String) (ctx : DialogueContext)
    (profile : NPCVoiceProfile) : DialogueFunction :=
  if triggerTag = "on_enemy_spotted" then DialogueFunction.ThreatBark
  else if triggerTag = "on_player_pain" then DialogueFunction.Pain
  else if triggerTag = "on_player_surprised" then DialogueFunction.Surprise
  else if triggerTag = "on_player_breaks_taboo" then DialogueFunction.RitualHint
  else if triggerTag = "on_night_heartbeat" then
    (if profile.superstition01 > mkRat 6 10 then DialogueFunction.Dread
     else DialogueFunction.Rumor)
  else if triggerTag = "on_enter_safehouse" then
    (if profile.bureaucratic01 > mkRat 1 2 then DialogueFunction.Bureaucratic
     else DialogueFunction.NeutralAmbient)
  else if ctx.threatLevel01 > mkRat 6 10 then DialogueFunction.Dread
  else if !ctx.knownRumorIds.isEmpty then DialogueFunction.Rumor
  else DialogueFunction.NeutralAmbient

/-- DialogueSystem::CanFire.  The ledger maps (npcId, function) keys to the
timestamp of the last successful emission. -/
def canFire (profile : NPCVoiceProfile) (fn : DialogueFunction)
    (ledger : List ((String × DialogueFunction) × ℚ)) (now : ℚ) : Bool :=
  let cooldown := (assocLookup fn profile.cooldownSeconds).getD 0
  if cooldown ≤ 0 then true
  else
    match assocLookup (profile.npcId, fn) ledger with
    | none => true
    | some lastTime => if qSub now lastTime ≥ cooldown then true else false

/-- DialogueSystem::CollectCandidates, body of the per-template loop: each
early `continue` is a conjunct. -/
def templateMatches (ctx : DialogueContext) (profile : NPCVoiceProfile)
    (fn : DialogueFunction) (t : DialogueTemplate) : Bool :=
  decide (t.function = fn) &&
  (decide (t.regionTone = ctx.regionTone) ||
    decide (t.regionTone = RegionTone.ForestVillage) ||
    decide (ctx.regionTone = RegionTone.ForestVillage)) &&
  (t.allowedRoles.isEmpty ||
    t.allowedRoles.any fun r => decide (r = profile.role)) &&
  (t.requiredTabooIds.all fun tb => decide (tb ∈ ctx.activeTabooIds)) &&
  (t.requiredEventIds.all fun ev => decide (ev ∈ ctx.recentEventIds)) &&
  (decide (ctx.locationId = "") ||
    !(t.disallowedLocationIds.any fun loc => decide (loc = ctx.locationId))) &&
  (match t.condition with
   | none => true
   | some c => c ctx profile)

/-- DialogueSystem::CollectCandidates: keep matching templates in pool order. -/
def collectCandidates (pool : List DialogueTemplate) (ctx : DialogueContext)
    (profile : NPCVoiceProfile) (fn : DialogueFunction) : List DialogueTemplate :=
  pool.filter (templateMatches ctx profile fn)

/-- Cumulative scan of DialogueSystem::PickTemplateWeighted: return the first
candidate whose running weight total reaches the roll. -/
def pickScan (roll : ℚ) : List DialogueTemplate → ℚ → Option DialogueTemplate
  | [], _ => none
  | t :: rest, cum =>
    if roll ≤ qAdd cum t.weight then some t else pickScan roll rest (qAdd cum t.weight)

/-- Accumulation `totalWeight += t->weight` of PickTemplateWeighted; equal
to the sum of the weights (lemma `weightSum_eq`). -/
def weightSum (l : List DialogueTemplate) : ℚ :=
  l.foldl (fun acc t => qAdd acc t.weight) 0

/-- DialogueSystem::PickTemplateWeighted. -/
def pickTemplateWeighted (candidates : List DialogueTemplate) (s : RngStream) :
    Option DialogueTemplate × RngStream :=
  match candidates with
  | [] => (none, s)
  | c0 :: rest =>
    let total := weightSum (c0 :: rest)
    if total ≤ 0 then (some c0, s)
    else
      let rs := rngFloat 0 total s
      match pickScan rs.1 (c0 :: rest) 0 with
      | some t => (some t, rs.2)
      | none => (some ((c0 :: rest).getLast (List.cons_ne_nil c0 rest)), rs.2)

/-- Single-character helper used only to build source string literals that
contain an apostrophe. -/
def apos : Char := Char.ofNat 39

/-- DialogueSystem::ReplaceToken, scanning loop.  Emitting `value` and
resuming the scan after the token occurrence models `pos += value.length()`:
the inserted value is never rescanned.  The `skip` counter consumes the
remaining characters of a matched token one at a time, which keeps the
recursion structural in the text; `skip = k` is the state "the scan position
is k characters ahead of the head" (lemma `replaceTokenAux_skip`). -/
def replaceTokenAux (token value : List Char) : List Char → Nat → List Char
  | [], _ => []
  | _ :: rest, skip + 1 => replaceTokenAux token value rest skip
  | c :: rest, 0 =>
    if token.isPrefixOf (c :: rest) then
      value ++ replaceTokenAux token value rest (token.length - 1)
    else
      c :: replaceTokenAux token value rest 0

/-- DialogueSystem::ReplaceToken: replace every occurrence of `token` in
`text` by `value`, left to right, never rescanning inserted values; an
empty token returns immediately. -/
def replaceToken (text token value : List Char) : List Char :=
  if token.isEmpty then text else replaceTokenAux token value text 0

/-- Fuel-instrumented version of the ReplaceToken loop, used to state that
the scan terminates within `text.length` iterations. -/
def replaceTokenFuel (token value : List Char) :
    Nat → List Char → Option (List Char)
  | _, [] => some []
  | 0, _ :: _ => none
  | fuel + 1, c :: rest =>
    if token.isPrefixOf (c :: rest) then
      (replaceTokenFuel token value fuel (rest.drop (token.length - 1))).map
        (fun tail => value ++ tail)
    else
      (replaceTokenFuel token value fuel rest).map (fun tail => c :: tail)

/-- std::string::find(pattern) != npos over character lists. -/
def hasSubstring (pattern : List Char) : List Char → Bool
  | [] => pattern.isEmpty
  | c :: rest => pattern.isPrefixOf (c :: rest) || hasSubstring pattern rest

/-- DialogueSystem::PickPlayerCallsign. -/
def pickPlayerCallsign (profile : NPCVoiceProfile) : List Char :=
  match profile.role with
  | SpeakerSocialRole.Bureaucrat => "citizen".data
  | SpeakerSocialRole.Soldier => "strannik".data
  | SpeakerSocialRole.Priest => "soul".data
  | _ => "you".data

/-- DialogueSystem::PickLocalSpiritEpithet. -/
def pickLocalSpiritEpithet (ctx : DialogueContext) : List Char :=
  match ctx.regionTone with
  | RegionTone.ForestVillage => "the bent one".data
  | RegionTone.SovietApartment => "the stairwell listener".data
  | RegionTone.IndustrialBlock => "the thing in the ducts".data
  | RegionTone.BorderOutpost => "the one beyond the fence".data

/-- DialogueSystem::PickTabooPhrase.  The arbitrary member taken by
`*activeTabooIds.begin()` is modelled as the head of the list. -/
def pickTabooPhrase (ctx : DialogueContext) : List Char :=
  match ctx.activeTabooIds with
  | [] => "the old rules".data
  | anyId :: _ =>
    if anyId = "TABS_WHISTLE_AT_NIGHT" then "no whistling after dark".data
    else if anyId = "TABS_NO_BUCKETS_UPSIDE_DOWN" then
      ("never leave a bucket mouth".data ++ [Char.ofNat 0x2011] ++ "down".data)
    else "the village law".data

/-- DialogueSystem::PickPlaceName. -/
def pickPlaceName (ctx : DialogueContext) : List Char :=
  if hasSubstring "ASHDITCH".data ctx.locationId.data then "Ash Ditch".data
  else if hasSubstring "BLOCK_A".data ctx.locationId.data then
    "Block A stairwell".data
  else "this place".data

/-- DialogueSystem::PickBodySymptom. -/
def pickBodySymptom (ctx : DialogueContext) : List Char :=
  if ctx.playerIsBleeding then "bleeding".data
  else if ctx.playerLowHealth then "shaking".data
  else "breathing".data

/-- Token-substitution phase of DialogueSystem::RealizeTemplate: the five
ReplaceToken calls in source order. -/
def realizeSubst (text : List Char) (ctx : DialogueContext)
    (profile : NPCVoiceProfile) : List Char :=
  let b1 := replaceToken text "{PLAYER_CALLSIGN}".data (pickPlayerCallsign profile)
  let b2 := replaceToken b1 "{LOCAL_SPIRIT}".data (pickLocalSpiritEpithet ctx)
  let b3 := replaceToken b2 "{TABOO}".data (pickTabooPhrase ctx)
  let b4 := replaceToken b3 "{PLACE}".data (pickPlaceName ctx)
  replaceToken b4 "{BODYSYMPTOM}".data (pickBodySymptom ctx)

/-- std::string::rfind(c, pos): index of the last occurrence of `c` at an
index ≤ pos (the call site only uses pos < line.size()). -/
def rfindCharLe (l : List Char) (c : Char) : Nat → Option Nat
  | 0 => if l.get? 0 = some c then some 0 else none
  | pos + 1 =>
    if l.get? (pos + 1) = some c then some (pos + 1) else rfindCharLe l c pos

/-- ApplyStyleNoise, step 1: truncation for low verbosity. -/
def styleTruncate (line : List Char) (profile : NPCVoiceProfile)
    (s : RngStream) : List Char × RngStream :=
  if profile.verbosity01 < mkRat 3 10 then
    if 60 < line.length then
      match rfindCharLe line ' ' 60 with
      | some cutPos =>
        let line1 := line.take cutPos
        let bs := rngChance (mkRat 1 2) s
        (if bs.1 then line1 ++ "...".data else line1, bs.2)
      | none => (line, s)
    else (line, s)
  else (line, s)

/-- The fixed resigned closers appended for high fatalism. -/
def fatalistTails : List (List Char) :=
  [ " You get used to it.".data
  , " It was worse before.".data
  , " It never really stops.".data
  , (" That".data ++ [apos] ++ "s just how it is here.".data) ]

/-- ApplyStyleNoise, step 2: resigned tail for high fatalism.  The Bernoulli
draw is consumed whenever fatalism exceeds 0.6 (short-circuit order of the
source conjunction); the integer draw only when the tail is appended. -/
def styleFatalistTail (line : List Char) (profile : NPCVoiceProfile)
    (fn : DialogueFunction) (s : RngStream) : List Char × RngStream :=
  if profile.fatalism01 > mkRat 6 10 then
    let bs := rngChance (mkRat 2 5) s
    if bs.1 then
      if fn = DialogueFunction.Dread ∨ fn = DialogueFunction.Rumor then
        let is := rngInt 0 3 bs.2
        (line ++ fatalistTails.getD is.1 [], is.2)
      else (line, bs.2)
    else (line, bs.2)
  else (line, s)

/-- ApplyStyleNoise, step 3: bureaucratic lead-in. -/
def styleBureau (line : List Char) (profile : NPCVoiceProfile)
    (fn : DialogueFunction) (s : RngStream) : List Char × RngStream :=
  if profile.bureaucratic01 > mkRat 1 2 ∧ fn = DialogueFunction.Bureaucratic then
    let bs := rngChance (mkRat 1 2) s
    (if bs.1 then "According to regulations, ".data ++ line else line, bs.2)
  else (line, s)

/-- ApplyStyleNoise, step 4: superstitious fragment.  The returned flag
records whether the step inspected `line.back()` while the line was empty
(undefined behaviour in the C++ source); the model then proceeds with the
append. -/
def styleFragment (line : List Char) (profile : NPCVoiceProfile)
    (s : RngStream) : List Char × RngStream × Bool :=
  if profile.superstition01 > mkRat 7 10 then
    let bs := rngChance (mkRat 7 20) s
    if bs.1 then
      let emptyRead := line.isEmpty
      let line1 := if line.getLast? = some '.' then line.dropLast ++ [' '] else line
      (line1 ++ ("Just... don".data ++ [apos] ++ "t ask.".data), bs.2, emptyRead)
    else (line, bs.2, false)
  else (line, s, false)

/-- DialogueSystem::ApplyStyleNoise: the four style steps in source order.
The Bool component flags a read of the final character of an empty line. -/
def applyStyleNoise (line : List Char) (profile : NPCVoiceProfile)
    (fn : DialogueFunction) (s : RngStream) : List Char × RngStream × Bool :=
  let r1 := styleTruncate line profile s
  let r2 := styleFatalistTail r1.1 profile fn r1.2
  let r3 := styleBureau r2.1 profile fn r2.2
  styleFragment r3.1 profile r3.2

/-- DialogueSystem::RealizeTemplate: token substitution then style pass. -/
def realizeTemplate (t : DialogueTemplate) (ctx : DialogueContext)
    (profile : NPCVoiceProfile) (s : RngStream) : List Char × RngStream × Bool :=
  applyStyleNoise (realizeSubst t.text ctx profile) profile t.function s

/-- Engine state (class DialogueSystem): registries, ledger, clock, RNG. -/
structure DialogueSystem where
  currentTimeSeconds : ℚ := 0
  npcProfiles : List (String × NPCVoiceProfile) := []
  templates : List DialogueTemplate := []
  lastFireTimestamps : List ((String × DialogueFunction) × ℚ) := []
  rng : RngStream := {}

/-- DialogueSystem::RegisterNPCProfile (last write wins). -/
def registerNPCProfile (s : DialogueSystem) (profile : NPCVoiceProfile) :
    DialogueSystem :=
  { s with npcProfiles := (profile.npcId, profile) :: s.npcProfiles }

/-- DialogueSystem::SetCurrentTimeSeconds. -/
def setCurrentTimeSeconds (s : DialogueSystem) (t : ℚ) : DialogueSystem :=
  { s with currentTimeSeconds := t }

/-- DialogueSystem::TouchCooldown: record the current time for the key. -/
def touchCooldown (s : DialogueSystem) (npcId : String) (fn : DialogueFunction) :
    DialogueSystem :=
  { s with lastFireTimestamps :=
      ((npcId, fn), s.currentTimeSeconds) :: s.lastFireTimestamps }

/-- DialogueSystem::GenerateLine: the top-level orchestration. -/
def generateLine (s : DialogueSystem) (npcId triggerTag : String)
    (ctx : DialogueContext) : List Char × DialogueSystem :=
  match assocLookup npcId s.npcProfiles with
  | none => ([], s)
  | some profile =>
    let desiredFunction := mapTriggerToFunction triggerTag ctx profile
    if canFire profile desiredFunction s.lastFireTimestamps s.currentTimeSeconds then
      let candidates := collectCandidates s.templates ctx profile desiredFunction
      match candidates with
      | [] => ([], s)
      | c0 :: rest =>
        match pickTemplateWeighted (c0 :: rest) s.rng with
        | (none, rng1) => ([], { s with rng := rng1 })
        | (some chosen, rng1) =>
          let s1 := touchCooldown { s with rng := rng1 } profile.npcId desiredFunction
          let r := realizeTemplate chosen ctx profile s1.rng
          (r.1, { s1 with rng := r.2.1 })
    else ([], s)

/-! Basic lemmas about the arithmetic and scanning helpers. -/

theorem qAdd_eq (a b : ℚ) : qAdd a b = a + b := (Rat.add_def' a b).symm

theorem qSub_eq (a b : ℚ) : qSub a b = a - b := (Rat.sub_def' a b).symm

theorem qClamp_le {lo hi : ℚ} (x : ℚ) (h : lo ≤ hi) : qClamp lo hi x ≤ hi := by
  unfold qClamp
  split
  · exact h
  · split
    · exact le_refl hi
    · exact le_of_not_lt (by assumption)

theorem le_qClamp {lo hi : ℚ} (x : ℚ) (h : lo ≤ hi) : lo ≤ qClamp lo hi x := by
  unfold qClamp
  split
  · exact le_refl lo
  · split
    · exact h
    · exact le_of_not_lt (by assumption)

theorem weightSum_foldl (l : List DialogueTemplate) :
    ∀ c : ℚ, l.foldl (fun acc t => qAdd acc t.weight) c =
      c + (l.map (fun t => t.weight)).sum := by
  induction l with
  | nil => intro c; simp
  | cons t rest ih =>
    intro c
    rw [List.foldl_cons, ih, qAdd_eq, List.map_cons, List.sum_cons]
    ring

theorem weightSum_eq (l : List DialogueTemplate) :
    weightSum l = (l.map (fun t => t.weight)).sum := by
  rw [weightSum, weightSum_foldl, zero_add]

theorem assocLookup_cons_self {κ ν : Type} [DecidableEq κ] (k : κ) (v : ν)
    (l : List (κ × ν)) : assocLookup k ((k, v) :: l) = some v := by
  simp [assocLookup]

/-- A skip count of `k` is the same as continuing the scan `k` characters
further on. -/
theorem replaceTokenAux_skip (token value : List Char) :
    ∀ (l : List Char) (k : Nat),
      replaceTokenAux token value l k = replaceTokenAux token value (l.drop k) 0 := by
  intro l
  induction l with
  | nil => intro k; simp [replaceTokenAux]
  | cons c rest ih =>
    intro k
    match k with
    | 0 => rfl
    | k + 1 => simp only [replaceTokenAux, List.drop_succ_cons, ih k]

theorem replaceTokenAux_cons_pos {token : List Char} (value : List Char)
    {c : Char} {rest : List Char}
    (h : token.isPrefixOf (c :: rest) = true) :
    replaceTokenAux token value (c :: rest) 0 =
      value ++ replaceTokenAux token value (rest.drop (token.length - 1)) 0 := by
  rw [replaceTokenAux, if_pos h, replaceTokenAux_skip]

theorem replaceTokenAux_cons_neg {token : List Char} (value : List Char)
    {c : Char} {rest : List Char}
    (h : token.isPrefixOf (c :: rest) = false) :
    replaceTokenAux token value (c :: rest) 0 =
      c :: replaceTokenAux token value rest 0 := by
  rw [replaceTokenAux, if_neg (by simp [h])]

theorem isPrefixOf_append_self (l r : List Char) :
    l.isPrefixOf (l ++ r) = true := by
  induction l with
  | nil => simp [List.isPrefixOf]
  | cons c rest ih => simp [List.isPrefixOf, ih]

theorem hasSubstring_cons_false {token : List Char} {c : Char} {rest : List Char}
    (h : hasSubstring token (c :: rest) = false) :
    token.isPrefixOf (c :: rest) = false ∧ hasSubstring token rest = false := by
  rw [hasSubstring, Bool.or_eq_false_iff] at h
  exact h

/-- A scan over occurrence-free text copies it unchanged. -/
theorem replaceTokenAux_no_occurrence {token : List Char} (value : List Char) :
    ∀ {l : List Char}, hasSubstring token l = false →
      replaceTokenAux token value l 0 = l := by
  intro l
  induction l with
  | nil => intro _; rfl
  | cons c rest ih =>
    intro h
    obtain ⟨h1, h2⟩ := hasSubstring_cons_false h
    rw [replaceTokenAux_cons_neg value h1, ih h2]

theorem replaceToken_no_occurrence {token : List Char} (value : List Char)
    {text : List Char} (h : hasSubstring token text = false) :
    replaceToken text token value = text := by
  rw [replaceToken]
  split
  · rfl
  · exact replaceTokenAux_no_occurrence value h

/-- A text which is exactly one occurrence of the token expands to exactly
one copy of the value, even when the value contains the token. -/
theorem replaceToken_single_expansion {token : List Char} (value : List Char)
    (htok : token ≠ []) : replaceToken token token value = value := by
  match token, htok with
  | c :: t', _ =>
    rw [replaceToken, if_neg (by simp)]
    have hpre : (c :: t').isPrefixOf (c :: t') = true := by
      have := isPrefixOf_append_self (c :: t') []
      simpa using this
    rw [replaceTokenAux_cons_pos value hpre]
    simp [List.drop_length, replaceTokenAux]

/-- Replacing in `p ++ token ++ r`, where no occurrence of the token starts
inside `p`, replaces that occurrence and scans on behind it: every
occurrence met by the left-to-right scan is replaced. -/
theorem replaceTokenAux_decompose {token : List Char} (value : List Char)
    (htok : token ≠ []) :
    ∀ (p r : List Char),
      (∀ i, i < p.length → token.isPrefixOf ((p ++ token ++ r).drop i) = false) →
      replaceTokenAux token value (p ++ token ++ r) 0 =
        p ++ value ++ replaceTokenAux token value r 0 := by
  intro p
  induction p with
  | nil =>
    intro r _
    match token, htok with
    | c :: t', _ =>
      have hpre : (c :: t').isPrefixOf (([] : List Char) ++ (c :: t') ++ r) = true := by
        simpa using isPrefixOf_append_self (c :: t') r
      rw [List.nil_append]
      rw [List.nil_append] at hpre
      rw [List.cons_append] at hpre ⊢
      rw [replaceTokenAux_cons_pos value hpre]
      have : (t' ++ r).drop ((c :: t').length - 1) = r := by
        simpa using List.drop_left t' r
      rw [this]
      simp
  | cons d p' ih =>
    intro r hnone
    have h0 : token.isPrefixOf (d :: (p' ++ token ++ r)) = false := by
      have := hnone 0 (by simp)
      simpa using this
    rw [List.cons_append, List.cons_append, replaceTokenAux_cons_neg value h0]
    rw [ih r (fun i hi => by
      have := hnone (i + 1) (by simpa using Nat.succ_lt_succ hi)
      simpa using this)]
    simp

/-- The fuel-instrumented loop completes within `text.length` iterations. -/
theorem replaceTokenFuel_adequate {token : List Char} (value : List Char)
    (htok : token ≠ []) :
    ∀ (fuel : Nat) (text : List Char), text.length ≤ fuel →
      replaceTokenFuel token value fuel text =
        some (replaceTokenAux token value text 0) := by
  intro fuel
  induction fuel with
  | zero =>
    intro text hlen
    have : text = [] := List.length_eq_zero.mp (Nat.le_zero.mp hlen)
    subst this
    rfl
  | succ f ih =>
    intro text hlen
    match text with
    | [] => rfl
    | c :: rest =>
      by_cases hpre : token.isPrefixOf (c :: rest) = true
      · rw [replaceTokenFuel, if_pos hpre, replaceTokenAux_cons_pos value hpre]
        have hlen1 : (rest.drop (token.length - 1)).length ≤ f := by
          have h2 : rest.length ≤ f := Nat.le_of_succ_le_succ (by simpa using hlen)
          rw [List.length_drop]
          omega
        rw [ih (rest.drop (token.length - 1)) hlen1]
        rfl
      · have hpre' : token.isPrefixOf (c :: rest) = false :=
          Bool.eq_false_iff.mpr hpre
        rw [replaceTokenFuel, if_neg (by simp [hpre']),
          replaceTokenAux_cons_neg value hpre']
        rw [ih rest (Nat.le_of_succ_le_succ (by simpa using hlen))]
        rfl

/-- Characterization of `rfindCharLe`: a hit is an occurrence of the
character, lies at or before the bound, and is the last such occurrence
at or before the bound. -/
theorem rfindCharLe_spec (l : List Char) (c : Char) :
    ∀ (pos i : Nat), rfindCharLe l c pos = some i →
      l.get? i = some c ∧ i ≤ pos ∧
        ∀ j, j ≤ pos → l.get? j = some c → j ≤ i := by
  intro pos
  induction pos with
  | zero =>
    intro i h
    rw [rfindCharLe] at h
    split at h
    · cases h
      refine ⟨by assumption, Nat.le_refl 0, ?_⟩
      intro j hj _
      exact hj
    · cases h
  | succ pos ih =>
    intro i h
    rw [rfindCharLe] at h
    split at h
    · cases h
      refine ⟨by assumption, Nat.le_refl _, ?_⟩
      intro j hj _
      exact hj
    · obtain ⟨hget, hle, hmax⟩ := ih i h
      refine ⟨hget, Nat.le_succ_of_le hle, ?_⟩
      intro j hj hgetj
      rcases Nat.lt_or_ge j (pos + 1) with hlt | hge
      · exact hmax j (Nat.le_of_lt_succ hlt) hgetj
      · exact absurd hgetj (by
          have : j = pos + 1 := Nat.le_antisymm hj hge
          subst this
          assumption)

/-- The truncation step never empties a line whose first character is not a
space. -/
theorem styleTruncate_ne_nil {line : List Char} (profile : NPCVoiceProfile)
    (s : RngStream) (hne : line ≠ []) (hhead : line.head? ≠ some ' ') :
    (styleTruncate line profile s).1 ≠ [] := by
  simp only [styleTruncate]
  split
  · split
    · rcases hfind : rfindCharLe line ' ' 60 with _ | cutPos
      · simp only [hfind]
        exact hne
      · obtain ⟨hget, _, _⟩ := rfindCharLe_spec line ' ' 60 cutPos hfind
        have hcut : cutPos ≠ 0 := by
          intro h0
          subst h0
          rw [List.get?_zero] at hget
          exact hhead hget
        have htake : line.take cutPos ≠ [] := by
          rw [Ne, List.take_eq_nil_iff]
          push_neg
          exact ⟨hcut, hne⟩
        simp only [hfind]
        split
        · simp [htake]
        · exact htake
    · exact hne
  · exact hne

/-- The resigned-tail step preserves non-emptiness. -/
theorem styleFatalistTail_ne_nil {line : List Char} (profile : NPCVoiceProfile)
    (fn : DialogueFunction) (s : RngStream) (hne : line ≠ []) :
    (styleFatalistTail line profile fn s).1 ≠ [] := by
  simp only [styleFatalistTail]
  split
  · split
    · split
      · simp [hne]
      · exact hne
    · exact hne
  · exact hne

/-- The bureaucratic-prefix step preserves non-emptiness. -/
theorem styleBureau_ne_nil {line : List Char} (profile : NPCVoiceProfile)
    (fn : DialogueFunction) (s : RngStream) (hne : line ≠ []) :
    (styleBureau line profile fn s).1 ≠ [] := by
  simp only [styleBureau]
  split
  · split
    · simp
    · exact hne
  · exact hne

/-- The fragment step reports an empty-line read only when its input line is
empty. -/
theorem styleFragment_flag {line : List Char} (profile : NPCVoiceProfile)
    (s : RngStream) (hne : line ≠ []) :
    (styleFragment line profile s).2.2 = false := by
  simp only [styleFragment]
  split
  · split
    · simpa using hne
    · rfl
  · rfl

/-- The first style-relevant read of `line.back()` is safe whenever the line
entering the style pass is non-empty and does not begin with a space. -/
theorem applyStyleNoise_flag {line : List Char} (profile : NPCVoiceProfile)
    (fn : DialogueFunction) (s : RngStream) (hne : line ≠ [])
    (hhead : line.head? ≠ some ' ') :
    (applyStyleNoise line profile fn s).2.2 = false := by
  simp only [applyStyleNoise]
  exact styleFragment_flag profile _
    (styleBureau_ne_nil profile fn _
      (styleFatalistTail_ne_nil profile fn _
        (styleTruncate_ne_nil profile s hne hhead)))

/-- A scan hit is a member of the candidate list. -/
theorem pickScan_mem (roll : ℚ) :
    ∀ (l : List DialogueTemplate) (cum : ℚ) (t : DialogueTemplate),
      pickScan roll l cum = some t → t ∈ l := by
  intro l
  induction l with
  | nil => intro cum t h; cases h
  | cons c rest ih =>
    intro cum t h
    rw [pickScan] at h
    split at h
    · cases h
      exact List.mem_cons_self _ _
    · exact List.mem_cons_of_mem _ (ih _ t h)

/-- Specification of the cumulative scan: when the roll does not exceed the
total, the scan returns the first candidate in order whose cumulative weight
reaches the roll. -/
theorem pickScan_spec (roll : ℚ) :
    ∀ (l : List DialogueTemplate) (cum : ℚ),
      roll ≤ cum + ((l.map fun t => t.weight).sum) → l ≠ [] →
      ∃ i, ∃ h : i < l.length,
        pickScan roll l cum = some (l.get ⟨i, h⟩) ∧
        roll ≤ cum + (((l.take (i + 1)).map fun t => t.weight).sum) ∧
        ∀ j, j < i → cum + (((l.take (j + 1)).map fun t => t.weight).sum) < roll := by
  intro l
  induction l with
  | nil => intro cum _ hne; exact absurd rfl hne
  | cons t rest ih =>
    intro cum htot _
    by_cases hle : roll ≤ qAdd cum t.weight
    · refine ⟨0, by simp, ?_, ?_, ?_⟩
      · rw [pickScan, if_pos hle]
        rfl
      · simpa [qAdd_eq] using hle
      · intro j hj
        exact absurd hj (Nat.not_lt_zero j)
    · have hlt : qAdd cum t.weight < roll := lt_of_not_le hle
      rw [qAdd_eq] at hlt
      have hrest : rest ≠ [] := by
        intro hnil
        subst hnil
        simp only [List.map_cons, List.map_nil, List.sum_cons, List.sum_nil,
          add_zero] at htot
        linarith
      have htot' : roll ≤ (cum + t.weight) + ((rest.map fun t => t.weight).sum) := by
        simp only [List.map_cons, List.sum_cons] at htot
        linarith
      obtain ⟨i, hi, heq, hle2, hmax⟩ := ih (cum + t.weight) htot' hrest
      refine ⟨i + 1, by simpa using Nat.succ_lt_succ hi, ?_, ?_, ?_⟩
      · rw [pickScan, if_neg hle, qAdd_eq]
        rw [heq]
        simp
      · rw [List.take_succ_cons, List.map_cons, List.sum_cons]
        linarith
      · intro j hj
        match j with
        | 0 =>
          simp only [List.take_succ_cons, List.take_zero, List.map_cons,
            List.map_nil, List.sum_cons, List.sum_nil, add_zero]
          linarith
        | j + 1 =>
          have := hmax j (Nat.lt_of_succ_lt_succ hj)
          rw [List.take_succ_cons, List.map_cons, List.sum_cons]
          linarith

/-- The weighted selector always selects from a non-empty candidate list,
and the selection is a member of the list. -/
theorem pickTemplateWeighted_some (c0 : DialogueTemplate)
    (rest : List DialogueTemplate) (s : RngStream) :
    ∃ chosen s1, pickTemplateWeighted (c0 :: rest) s = (some chosen, s1) ∧
      chosen ∈ c0 :: rest := by
  rw [pickTemplateWeighted]
  by_cases htot : weightSum (c0 :: rest) ≤ 0
  · exact ⟨c0, s, by simp [htot], List.mem_cons_self _ _⟩
  · rcases hscan : pickScan (rngFloat 0 (weightSum (c0 :: rest)) s).1 (c0 :: rest) 0
        with _ | t
    · refine ⟨(c0 :: rest).getLast (List.cons_ne_nil c0 rest),
        (rngFloat 0 (weightSum (c0 :: rest)) s).2, ?_, ?_⟩
      · simp [htot, hscan]
      · exact List.getLast_mem _
    · refine ⟨t, (rngFloat 0 (weightSum (c0 :: rest)) s).2, ?_, ?_⟩
      · simp [htot, hscan]
      · exact pickScan_mem _ _ _ _ hscan

/-- Rejection path: unknown NPC identifier. -/
theorem generateLine_unknown {s : DialogueSystem} {npcId tag : String}
    {ctx : DialogueContext} (h : assocLookup npcId s.npcProfiles = none) :
    generateLine s npcId tag ctx = ([], s) := by
  simp [generateLine, h]

/-- Rejection path: the routed category is on cooldown. -/
theorem generateLine_onCooldown {s : DialogueSystem} {npcId tag : String}
    {ctx : DialogueContext} {profile : NPCVoiceProfile}
    (h : assocLookup npcId s.npcProfiles = some profile)
    (hc : canFire profile (mapTriggerToFunction tag ctx profile)
      s.lastFireTimestamps s.currentTimeSeconds = false) :
    generateLine s npcId tag ctx = ([], s) := by
  simp [generateLine, h, hc]

/-- Rejection path: no template survives the candidate filter. -/
theorem generateLine_noCandidates {s : DialogueSystem} {npcId tag : String}
    {ctx : DialogueContext} {profile : NPCVoiceProfile}
    (h : assocLookup npcId s.npcProfiles = some profile)
    (hc : canFire profile (mapTriggerToFunction tag ctx profile)
      s.lastFireTimestamps s.currentTimeSeconds = true)
    (hcand : collectCandidates s.templates ctx profile
      (mapTriggerToFunction tag ctx profile) = []) :
    generateLine s npcId tag ctx = ([], s) := by
  simp [generateLine, h, hc, hcand]

/-- Success path: some template survives the filter; the engine selects,
touches the cooldown ledger with the current time, realizes, and returns. -/
theorem generateLine_success {s : DialogueSystem} {npcId tag : String}
    {ctx : DialogueContext} {profile : NPCVoiceProfile}
    {c0 : DialogueTemplate} {rest : List DialogueTemplate}
    (h : assocLookup npcId s.npcProfiles = some profile)
    (hc : canFire profile (mapTriggerToFunction tag ctx profile)
      s.lastFireTimestamps s.currentTimeSeconds = true)
    (hcand : collectCandidates s.templates ctx profile
      (mapTriggerToFunction tag ctx profile) = c0 :: rest) :
    ∃ chosen rng1,
      pickTemplateWeighted (c0 :: rest) s.rng = (some chosen, rng1) ∧
      chosen ∈ c0 :: rest ∧
      generateLine s npcId tag ctx =
        ((realizeTemplate chosen ctx profile rng1).1,
         { s with
             lastFireTimestamps :=
               ((profile.npcId, mapTriggerToFunction tag ctx profile),
                 s.currentTimeSeconds) :: s.lastFireTimestamps,
             rng := (realizeTemplate chosen ctx profile rng1).2.1 }) := by
  obtain ⟨chosen, rng1, hpick, hmem⟩ := pickTemplateWeighted_some c0 rest s.rng
  refine ⟨chosen, rng1, hpick, hmem, ?_⟩
  simp [generateLine, h, hc, hcand, hpick, touchCooldown]

/-- generate-line never changes the profile registry, the template pool, or
the clock. -/
theorem generateLine_fields (s : DialogueSystem) (npcId tag : String)
    (ctx : DialogueContext) :
    (generateLine s npcId tag ctx).2.npcProfiles = s.npcProfiles ∧
    (generateLine s npcId tag ctx).2.currentTimeSeconds = s.currentTimeSeconds ∧
    (generateLine s npcId tag ctx).2.templates = s.templates := by
  cases h : assocLookup npcId s.npcProfiles with
  | none => rw [generateLine_unknown h]; exact ⟨rfl, rfl, rfl⟩
  | some profile =>
    cases hc : canFire profile (mapTriggerToFunction tag ctx profile)
        s.lastFireTimestamps s.currentTimeSeconds with
    | false => rw [generateLine_onCooldown h hc]; exact ⟨rfl, rfl, rfl⟩
    | true =>
      cases hcand : collectCandidates s.templates ctx profile
          (mapTriggerToFunction tag ctx profile) with
      | nil => rw [generateLine_noCandidates h hc hcand]; exact ⟨rfl, rfl, rfl⟩
      | cons c0 rest =>
        obtain ⟨chosen, rng1, _, _, heq⟩ := generateLine_success h hc hcand
        rw [heq]
        exact ⟨rfl, rfl, rfl⟩

/-- A call that produced any line at all (in particular a non-empty one) went
through the success path: its ledger is the old ledger extended by the
(npcId, routed category) entry stamped with the current time. -/
theorem generateLine_ledger_of_ne_nil {s : DialogueSystem} {npcId tag : String}
    {ctx : DialogueContext}
    (hne : (generateLine s npcId tag ctx).1 ≠ []) :
    ∃ profile, assocLookup npcId s.npcProfiles = some profile ∧
      (generateLine s npcId tag ctx).2.lastFireTimestamps =
        ((profile.npcId, mapTriggerToFunction tag ctx profile),
          s.currentTimeSeconds) :: s.lastFireTimestamps := by
  cases h : assocLookup npcId s.npcProfiles with
  | none =>
    rw [generateLine_unknown h] at hne
    exact absurd rfl hne
  | some profile =>
    refine ⟨profile, rfl, ?_⟩
    cases hc : canFire profile (mapTriggerToFunction tag ctx profile)
        s.lastFireTimestamps s.currentTimeSeconds with
    | false =>
      rw [generateLine_onCooldown h hc] at hne
      exact absurd rfl hne
    | true =>
      cases hcand : collectCandidates s.templates ctx profile
          (mapTriggerToFunction tag ctx profile) with
      | nil =>
        rw [generateLine_noCandidates h hc hcand] at hne
        exact absurd rfl hne
      | cons c0 rest =>
        obtain ⟨chosen, rng1, _, _, heq⟩ := generateLine_success h hc hcand
        rw [heq]

/-! Claim-side predicates and the claim theorems. -/

/-- The candidate condition exactly as the specification words it (C1), for
comparison with the source-translated `templateMatches`. -/
def specMatchesB (ctx : DialogueContext) (profile : NPCVoiceProfile)
    (fn : DialogueFunction) (t : DialogueTemplate) : Bool :=
  decide (t.function = fn) &&
  decide (t.regionTone = ctx.regionTone ∨ t.regionTone = RegionTone.ForestVillage ∨
    ctx.regionTone = RegionTone.ForestVillage) &&
  (decide (t.allowedRoles = []) || decide (profile.role ∈ t.allowedRoles)) &&
  decide (∀ tb ∈ t.requiredTabooIds, tb ∈ ctx.activeTabooIds) &&
  decide (∀ ev ∈ t.requiredEventIds, ev ∈ ctx.recentEventIds) &&
  (decide (ctx.locationId = "") ||
    decide (∀ loc ∈ t.disallowedLocationIds, loc ≠ ctx.locationId)) &&
  (match t.condition with
   | none => true
   | some c => c ctx profile)

theorem or3_decide (a b c : Prop) [Decidable a] [Decidable b] [Decidable c] :
    (decide a || decide b || decide c) = decide (a ∨ b ∨ c) := by
  rw [Bool.eq_iff_iff]
  simp [or_assoc]

theorem roles_any_eq (roles : List SpeakerSocialRole) (r : SpeakerSocialRole) :
    (roles.isEmpty || roles.any fun x => decide (x = r)) =
    (decide (roles = []) || decide (r ∈ roles)) := by
  rw [Bool.eq_iff_iff]
  simp [List.isEmpty_iff, List.any_eq_true]

theorem all_mem_eq (xs ys : List String) :
    (xs.all fun x => decide (x ∈ ys)) = decide (∀ x ∈ xs, x ∈ ys) := by
  rw [Bool.eq_iff_iff]
  simp [List.all_eq_true]

theorem loc_any_eq (xs : List String) (loc : String) :
    (!(xs.any fun x => decide (x = loc))) = decide (∀ x ∈ xs, x ≠ loc) := by
  rw [Bool.eq_iff_iff]
  simp [List.any_eq_true]

theorem templateMatches_eq_spec (ctx : DialogueContext)
    (profile : NPCVoiceProfile) (fn : DialogueFunction) (t : DialogueTemplate) :
    templateMatches ctx profile fn t = specMatchesB ctx profile fn t := by
  rw [templateMatches, specMatchesB, or3_decide, roles_any_eq,
    all_mem_eq, all_mem_eq, loc_any_eq]

/-- C1: the candidate filter returns exactly the subsequence of the pool, in
pool order, of the templates satisfying the specification conjunction
(category, tone compatibility, role, required taboos, required events,
location blacklist, optional predicate); in particular a template with an
unmet required-event reference is never a candidate. -/
theorem collectCandidates_spec (pool : List DialogueTemplate)
    (ctx : DialogueContext) (profile : NPCVoiceProfile) (fn : DialogueFunction) :
    collectCandidates pool ctx profile fn =
      pool.filter (specMatchesB ctx profile fn) ∧
    ∀ t ∈ pool, (∃ ev ∈ t.requiredEventIds, ev ∉ ctx.recentEventIds) →
      t ∉ collectCandidates pool ctx profile fn := by
  constructor
  · rw [collectCandidates]
    exact List.filter_congr (fun t _ => templateMatches_eq_spec ctx profile fn t)
  · intro t _ ⟨ev, hev, hnot⟩ hmem
    rw [collectCandidates, List.mem_filter] at hmem
    have := hmem.2
    rw [templateMatches_eq_spec] at this
    simp only [specMatchesB, Bool.and_eq_true, decide_eq_true_iff] at this
    exact hnot (this.1.1.2 ev hev)

/-- C1 witness: the filter equation and the unmet-event exclusion evaluated
at a concrete pool. -/
theorem collectCandidates_spec_witness :
    (collectCandidates
        [{ function := DialogueFunction.Pain, text := "hi".data,
           requiredEventIds := ["EV_X"] }] {} {} DialogueFunction.Pain =
      List.filter (specMatchesB {} {} DialogueFunction.Pain)
        [{ function := DialogueFunction.Pain, text := "hi".data,
           requiredEventIds := ["EV_X"] }]) ∧
    ({ function := DialogueFunction.Pain, text := "hi".data,
       requiredEventIds := ["EV_X"] } : DialogueTemplate) ∉
      collectCandidates
        [{ function := DialogueFunction.Pain, text := "hi".data,
           requiredEventIds := ["EV_X"] }] {} {} DialogueFunction.Pain := by
  constructor
  · exact (collectCandidates_spec _ {} {} DialogueFunction.Pain).1
  · exact (collectCandidates_spec _ {} {} DialogueFunction.Pain).2 _
      (List.mem_singleton.mpr rfl) ⟨"EV_X", by simp, by simp⟩

/-- C5: the trigger router is total and returns: threat-bark, pain,
surprise, ritual-hint for the four fixed tags; dread or rumor by the
superstition slider for the night heartbeat; bureaucratic or ambient by the
bureaucratic slider for the safehouse tag; and for any other tag dread on
high threat, else rumor when rumors are known, else ambient. -/
theorem mapTriggerToFunction_spec (ctx : DialogueContext)
    (profile : NPCVoiceProfile) :
    mapTriggerToFunction "on_enemy_spotted" ctx profile =
      DialogueFunction.ThreatBark ∧
    mapTriggerToFunction "on_player_pain" ctx profile = DialogueFunction.Pain ∧
    mapTriggerToFunction "on_player_surprised" ctx profile =
      DialogueFunction.Surprise ∧
    mapTriggerToFunction "on_player_breaks_taboo" ctx profile =
      DialogueFunction.RitualHint ∧
    mapTriggerToFunction "on_night_heartbeat" ctx profile =
      (if profile.superstition01 > mkRat 6 10 then DialogueFunction.Dread
       else DialogueFunction.Rumor) ∧
    mapTriggerToFunction "on_enter_safehouse" ctx profile =
      (if profile.bureaucratic01 > mkRat 1 2 then DialogueFunction.Bureaucratic
       else DialogueFunction.NeutralAmbient) ∧
    ∀ tag : String,
      tag ∉ (["on_enemy_spotted", "on_player_pain", "on_player_surprised",
        "on_player_breaks_taboo", "on_night_heartbeat",
        "on_enter_safehouse"] : List String) →
      mapTriggerToFunction tag ctx profile =
        (if ctx.threatLevel01 > mkRat 6 10 then DialogueFunction.Dread
         else if ctx.knownRumorIds ≠ [] then DialogueFunction.Rumor
         else DialogueFunction.NeutralAmbient) := by
  refine ⟨by simp [mapTriggerToFunction], by simp [mapTriggerToFunction],
    by simp [mapTriggerToFunction], by simp [mapTriggerToFunction],
    by simp [mapTriggerToFunction], by simp [mapTriggerToFunction], ?_⟩
  intro tag htag
  simp only [List.mem_cons, List.mem_singleton, not_or] at htag
  obtain ⟨h1, h2, h3, h4, h5, h6, _⟩ := htag
  rw [mapTriggerToFunction, if_neg h1, if_neg h2, if_neg h3, if_neg h4,
    if_neg h5, if_neg h6]
  cases hr : ctx.knownRumorIds with
  | nil => simp [hr]
  | cons a l => simp [hr]

/-- C5 witness: the router evaluated on an unrecognized tag with a
high-threat context. -/
theorem mapTriggerToFunction_spec_witness :
    mapTriggerToFunction "on_custom_event" { threatLevel01 := mkRat 7 10 } {} =
      DialogueFunction.Dread := by
  have h := (mapTriggerToFunction_spec { threatLevel01 := mkRat 7 10 } {}).2.2.2.2.2.2
    "on_custom_event" (by decide)
  rw [h]
  decide

/-- C2: canFire is true iff the configured cooldown is ≤ 0, or no prior
timestamp exists for the (NPC, category) pair, or currentTime − lastTime ≥
cooldown; consequently two generate-line calls routing to the same category
K with cooldown C > 0, made at times t and t + Δ with 0 ≤ Δ < C, never both
return a non-empty line: if the first succeeds the second returns empty. -/
theorem cooldown_gating :
    (∀ (profile : NPCVoiceProfile) (fn : DialogueFunction)
        (ledger : List ((String × DialogueFunction) × ℚ)) (now : ℚ),
      canFire profile fn ledger now = true ↔
        ((assocLookup fn profile.cooldownSeconds).getD 0 ≤ 0 ∨
         assocLookup (profile.npcId, fn) ledger = none ∨
         ∃ lastTime, assocLookup (profile.npcId, fn) ledger = some lastTime ∧
           now - lastTime ≥ (assocLookup fn profile.cooldownSeconds).getD 0)) ∧
    (∀ (s : DialogueSystem) (npc tag1 tag2 : String)
        (ctx1 ctx2 : DialogueContext) (profile : NPCVoiceProfile) (C Δ : ℚ),
      assocLookup npc s.npcProfiles = some profile →
      (assocLookup (mapTriggerToFunction tag1 ctx1 profile)
        profile.cooldownSeconds).getD 0 = C →
      0 < C →
      mapTriggerToFunction tag2 ctx2 profile = mapTriggerToFunction tag1 ctx1 profile →
      0 ≤ Δ → Δ < C →
      (generateLine s npc tag1 ctx1).1 ≠ [] →
      (generateLine (setCurrentTimeSeconds (generateLine s npc tag1 ctx1).2
          (s.currentTimeSeconds + Δ)) npc tag2 ctx2).1 = []) := by
  constructor
  · intro profile fn ledger now
    rw [canFire]
    by_cases hcool : (assocLookup fn profile.cooldownSeconds).getD 0 ≤ 0
    · simp [hcool]
    · cases hlk : assocLookup (profile.npcId, fn) ledger with
      | none => simp [hcool, hlk]
      | some lastTime =>
        by_cases hge : qSub now lastTime ≥ (assocLookup fn profile.cooldownSeconds).getD 0
        · rw [qSub_eq] at hge
          simp [hcool, hlk, hge, qSub_eq]
        · rw [qSub_eq] at hge
          simp [hcool, hlk, hge, qSub_eq]
  · intro s npc tag1 tag2 ctx1 ctx2 profile C Δ hlk hcool hCpos hroute hΔ0 hΔC hne
    obtain ⟨profile', hlk', hledg⟩ := generateLine_ledger_of_ne_nil hne
    rw [hlk] at hlk'
    cases hlk'
    obtain ⟨hprof, htime, _⟩ := generateLine_fields s npc tag1 ctx1
    have hlk2 : assocLookup npc (setCurrentTimeSeconds
        (generateLine s npc tag1 ctx1).2 (s.currentTimeSeconds + Δ)).npcProfiles =
        some profile := by
      rw [setCurrentTimeSeconds]
      simpa [hprof] using hlk
    have hq : ¬ (qSub (s.currentTimeSeconds + Δ) s.currentTimeSeconds ≥ C) := by
      rw [qSub_eq]
      have h1 : s.currentTimeSeconds + Δ - s.currentTimeSeconds = Δ := by ring
      rw [h1]
      exact not_le.mpr hΔC
    have hcf : canFire profile (mapTriggerToFunction tag2 ctx2 profile)
        (setCurrentTimeSeconds (generateLine s npc tag1 ctx1).2
          (s.currentTimeSeconds + Δ)).lastFireTimestamps
        (setCurrentTimeSeconds (generateLine s npc tag1 ctx1).2
          (s.currentTimeSeconds + Δ)).currentTimeSeconds = false := by
      simp only [setCurrentTimeSeconds, hroute, canFire, hcool, hledg,
        assocLookup_cons_self]
      simp [hq, not_le.mpr hCpos]
    rw [generateLine_onCooldown hlk2 hcf]

/-- Concrete fixture: one Pain-category template and one NPC whose Pain
cooldown is 3 seconds. -/
def painProfile : NPCVoiceProfile :=
  { npcId := "n", superstition01 := 0, fatalism01 := 0,
    cooldownSeconds := [(DialogueFunction.Pain, 3)] }

def painTemplate : DialogueTemplate :=
  { function := DialogueFunction.Pain, text := "hi".data }

def painSystem : DialogueSystem :=
  { npcProfiles := [("n", painProfile)], templates := [painTemplate] }

/-- C2 witness: a Pain-category template fired at t = 0 with cooldown 3
blocks a second Pain-routed call at t = 1. -/
theorem cooldown_gating_witness :
    (generateLine painSystem "n" "on_player_pain" {}).1 ≠ [] ∧
    (generateLine (setCurrentTimeSeconds
        (generateLine painSystem "n" "on_player_pain" {}).2 (0 + 1))
      "n" "on_player_pain" {}).1 = [] := by
  constructor
  · decide
  · exact cooldown_gating.2 painSystem "n" "on_player_pain" "on_player_pain"
      {} {} painProfile 3 1 rfl (by decide) (by decide) rfl
      (by decide) (by decide) (by decide)

/-- Concrete fixture for the truncation-to-empty corner: a template whose
62-character text starts with a space and contains no other space at
positions 0..60, spoken with verbosity 0. -/
def spaceLeadText : List Char := ' ' :: List.replicate 61 'a'

def spaceLeadTemplate : DialogueTemplate :=
  { function := DialogueFunction.NeutralAmbient, text := spaceLeadText }

def terseProfile : NPCVoiceProfile :=
  { npcId := "n", verbosity01 := 0, superstition01 := 0, fatalism01 := 0,
    bureaucratic01 := 0, cooldownSeconds := [] }

def spaceLeadSystem : DialogueSystem :=
  { npcProfiles := [("n", terseProfile)], templates := [spaceLeadTemplate] }

/-- C3 counterexample: a call that returns the empty string but mutates the
cooldown ledger.  The lone matching template realizes to a 62-character line
beginning with a space; truncation cuts at position 0, the ellipsis draw
fails, and the final line is empty — yet the ledger was touched on this
success path. -/
theorem generateLine_empty_with_touch_example :
    (generateLine spaceLeadSystem "n" "x" {}).1 = [] ∧
    (generateLine spaceLeadSystem "n" "x" {}).2.lastFireTimestamps ≠
      spaceLeadSystem.lastFireTimestamps := by
  constructor
  · decide
  · decide

/-- C3 (amended): the ledger is unchanged on each of the three rejection
paths (unknown NPC, on cooldown, no matching candidates) and is extended
exactly once, with the current time for the (NPC, routed category) pair, on
the success path — even when the realized line happens to be empty. -/
theorem ledger_touch_paths (s : DialogueSystem) (npc tag : String)
    (ctx : DialogueContext) :
    (assocLookup npc s.npcProfiles = none →
      (generateLine s npc tag ctx).2.lastFireTimestamps = s.lastFireTimestamps) ∧
    (∀ profile, assocLookup npc s.npcProfiles = some profile →
      (canFire profile (mapTriggerToFunction tag ctx profile)
          s.lastFireTimestamps s.currentTimeSeconds = false →
        (generateLine s npc tag ctx).2.lastFireTimestamps =
          s.lastFireTimestamps) ∧
      (canFire profile (mapTriggerToFunction tag ctx profile)
          s.lastFireTimestamps s.currentTimeSeconds = true →
        collectCandidates s.templates ctx profile
            (mapTriggerToFunction tag ctx profile) = [] →
        (generateLine s npc tag ctx).2.lastFireTimestamps =
          s.lastFireTimestamps) ∧
      (canFire profile (mapTriggerToFunction tag ctx profile)
          s.lastFireTimestamps s.currentTimeSeconds = true →
        collectCandidates s.templates ctx profile
            (mapTriggerToFunction tag ctx profile) ≠ [] →
        (generateLine s npc tag ctx).2.lastFireTimestamps =
          ((profile.npcId, mapTriggerToFunction tag ctx profile),
            s.currentTimeSeconds) :: s.lastFireTimestamps)) := by
  refine ⟨?_, ?_⟩
  · intro h
    rw [generateLine_unknown h]
  · intro profile h
    refine ⟨?_, ?_, ?_⟩
    · intro hc
      rw [generateLine_onCooldown h hc]
    · intro hc hcand
      rw [generateLine_noCandidates h hc hcand]
    · intro hc hcand
      cases hcand2 : collectCandidates s.templates ctx profile
          (mapTriggerToFunction tag ctx profile) with
      | nil => exact absurd hcand2 hcand
      | cons c0 rest =>
        obtain ⟨chosen, rng1, _, _, heq⟩ := generateLine_success h hc hcand2
        rw [heq]

/-- C3 witness: on the success path of the concrete Pain fixture the ledger
gains exactly the (npc, Pain) entry stamped with time 0. -/
theorem ledger_touch_paths_witness :
    (generateLine painSystem "n" "on_player_pain" {}).2.lastFireTimestamps =
      ((("n" : String), DialogueFunction.Pain), (0 : ℚ)) ::
        painSystem.lastFireTimestamps := by
  have hcand : collectCandidates painSystem.templates {} painProfile
      (mapTriggerToFunction "on_player_pain" {} painProfile) = [painTemplate] := rfl
  have h := ((ledger_touch_paths painSystem "n" "on_player_pain" {}).2
    painProfile rfl).2.2 (by decide)
    (by rw [hcand]; exact List.cons_ne_nil _ _)
  simpa using h

/-- C7: every rejection path resolves to the empty string with the engine
state unchanged rather than an exceptional outcome — unknown NPC (for every
trigger and context), a category on cooldown, and an empty candidate list —
while the weighted selector is total on non-empty candidate lists, so
degenerate weights never produce a failed selection. -/
theorem generateLine_rejections_empty (s : DialogueSystem) (npc tag : String)
    (ctx : DialogueContext) :
    (assocLookup npc s.npcProfiles = none →
      generateLine s npc tag ctx = ([], s)) ∧
    (∀ profile, assocLookup npc s.npcProfiles = some profile →
      (canFire profile (mapTriggerToFunction tag ctx profile)
          s.lastFireTimestamps s.currentTimeSeconds = false →
        generateLine s npc tag ctx = ([], s)) ∧
      (canFire profile (mapTriggerToFunction tag ctx profile)
          s.lastFireTimestamps s.currentTimeSeconds = true →
        collectCandidates s.templates ctx profile
            (mapTriggerToFunction tag ctx profile) = [] →
        generateLine s npc tag ctx = ([], s))) ∧
    (∀ (candidates : List DialogueTemplate) (rngS : RngStream),
      candidates ≠ [] →
      (pickTemplateWeighted candidates rngS).1.isSome = true) := by
  refine ⟨?_, ?_, ?_⟩
  · intro h
    exact generateLine_unknown h
  · intro profile h
    exact ⟨fun hc => generateLine_onCooldown h hc,
      fun hc hcand => generateLine_noCandidates h hc hcand⟩
  · intro candidates rngS hne
    match candidates, hne with
    | c0 :: rest, _ =>
      obtain ⟨chosen, s1, hpick, _⟩ := pickTemplateWeighted_some c0 rest rngS
      rw [hpick]
      rfl

/-- C7 witness: an unregistered NPC identifier yields the empty string and
leaves the default engine state untouched. -/
theorem generateLine_rejections_empty_witness :
    generateLine {} "ghost" "on_night_heartbeat" {} = ([], {}) :=
  (generateLine_rejections_empty {} "ghost" "on_night_heartbeat" {}).1 rfl

/-- C4: the weighted selector returns no selection iff the candidate list is
empty; for a non-empty list with total weight ≤ 0 it deterministically
returns the first candidate; otherwise, for the uniform draw r in
[0, totalWeight], it returns the first candidate in list order whose
cumulative weight is ≥ r; and in every non-empty case the result is an
element of the list. -/
theorem pickTemplateWeighted_spec (candidates : List DialogueTemplate)
    (s : RngStream) :
    ((pickTemplateWeighted candidates s).1 = none ↔ candidates = []) ∧
    (∀ c0 rest, candidates = c0 :: rest →
      ((candidates.map fun t => t.weight).sum ≤ 0 →
        (pickTemplateWeighted candidates s).1 = some c0) ∧
      (0 < (candidates.map fun t => t.weight).sum →
        (0 ≤ (rngFloat 0 ((candidates.map fun t => t.weight).sum) s).1 ∧
          (rngFloat 0 ((candidates.map fun t => t.weight).sum) s).1 ≤
            (candidates.map fun t => t.weight).sum) ∧
        ∃ i, ∃ h : i < candidates.length,
          (pickTemplateWeighted candidates s).1 =
            some (candidates.get ⟨i, h⟩) ∧
          (rngFloat 0 ((candidates.map fun t => t.weight).sum) s).1 ≤
            (((candidates.take (i + 1)).map fun t => t.weight).sum) ∧
          ∀ j, j < i →
            (((candidates.take (j + 1)).map fun t => t.weight).sum) <
              (rngFloat 0 ((candidates.map fun t => t.weight).sum) s).1)) ∧
    (candidates ≠ [] →
      ∃ t, (pickTemplateWeighted candidates s).1 = some t ∧ t ∈ candidates) := by
  refine ⟨?_, ?_, ?_⟩
  · cases candidates with
    | nil => simp [pickTemplateWeighted]
    | cons c0 rest =>
      obtain ⟨chosen, s1, hpick, _⟩ := pickTemplateWeighted_some c0 rest s
      rw [hpick]
      simp
  · intro c0 rest hcand
    subst hcand
    constructor
    · intro htot
      rw [← weightSum_eq] at htot
      rw [pickTemplateWeighted, if_pos htot]
    · intro htot
      have hW : weightSum (c0 :: rest) = ((c0 :: rest).map fun t => t.weight).sum :=
        weightSum_eq _
      have htot' : ¬ weightSum (c0 :: rest) ≤ 0 := by
        rw [hW]
        exact not_le.mpr htot
      set roll := (rngFloat 0 (((c0 :: rest).map fun t => t.weight).sum) s).1 with hroll
      have hrollW : (rngFloat 0 (weightSum (c0 :: rest)) s).1 = roll := by
        rw [hW]
      have h0le : 0 ≤ roll := by
        rw [hroll, rngFloat]
        exact le_qClamp _ (le_of_lt htot)
      have hlehi : roll ≤ ((c0 :: rest).map fun t => t.weight).sum := by
        rw [hroll, rngFloat]
        exact qClamp_le _ (le_of_lt htot)
      refine ⟨⟨h0le, hlehi⟩, ?_⟩
      obtain ⟨i, hi, heq, hle2, hmax⟩ :=
        pickScan_spec roll (c0 :: rest) 0 (by simpa using hlehi)
          (List.cons_ne_nil c0 rest)
      refine ⟨i, hi, ?_, by simpa using hle2, fun j hj => by simpa using hmax j hj⟩
      simp only [pickTemplateWeighted]
      rw [if_neg htot', hrollW, heq]
  · intro hne
    match candidates, hne with
    | c0 :: rest, _ =>
      obtain ⟨chosen, s1, hpick, hmem⟩ := pickTemplateWeighted_some c0 rest s
      exact ⟨chosen, by rw [hpick], hmem⟩

/-- C4 witness: two candidates with weights 1 and 2 and a drawn roll of 3/2
select the second candidate; with both weights zero the first is returned. -/
theorem pickTemplateWeighted_spec_witness :
    (pickTemplateWeighted [painTemplate, { painTemplate with weight := 2 }]
        { floats := [mkRat 3 2] }).1 =
      some { painTemplate with weight := 2 } ∧
    (pickTemplateWeighted [{ painTemplate with weight := 0 },
        { painTemplate with weight := 0 }] {}).1 =
      some { painTemplate with weight := 0 } := by
  constructor
  · have h := ((pickTemplateWeighted_spec
      [painTemplate, { painTemplate with weight := 2 }]
      { floats := [mkRat 3 2] }).2.1 painTemplate
      [{ painTemplate with weight := 2 }] rfl).2
      (by simp only [← weightSum_eq]; decide)
    obtain ⟨_, i, hi, heq, hle, hmax⟩ := h
    match i, hi, heq, hle, hmax with
    | 0, _, heq, hle, _ =>
      simp only [← weightSum_eq] at hle
      exact absurd hle (by decide)
    | 1, _, heq, _, _ =>
      exact heq
  · exact ((pickTemplateWeighted_spec _ {}).2.1 _ _ rfl).1
      (by simp only [← weightSum_eq]; decide)

theorem replaceToken_eq_aux {token : List Char} (value text : List Char)
    (htok : token ≠ []) :
    replaceToken text token value = replaceTokenAux token value text 0 := by
  rw [replaceToken, if_neg (by simpa using htok)]

/-- C6: token replacement terminates for every input — the scanning loop
completes within text-length iterations — a text equal to one occurrence of
the token produces exactly one expansion even when the value contains the
token, and every occurrence met by the left-to-right scan is replaced. -/
theorem replaceToken_spec (token value text : List Char) (htok : token ≠ []) :
    replaceTokenFuel token value text.length text =
      some (replaceToken text token value) ∧
    replaceToken token token value = value ∧
    (∀ p r, text = p ++ token ++ r →
      (∀ i, i < p.length → token.isPrefixOf (text.drop i) = false) →
      replaceToken text token value = p ++ value ++ replaceToken r token value) := by
  refine ⟨?_, replaceToken_single_expansion value htok, ?_⟩
  · rw [replaceToken_eq_aux value text htok]
    exact replaceTokenFuel_adequate value htok text.length text (le_refl _)
  · intro p r htext hnone
    subst htext
    rw [replaceToken_eq_aux value _ htok, replaceToken_eq_aux value r htok]
    exact replaceTokenAux_decompose value htok p r hnone

/-- C6 witness: replacing "{X}" by "a{X}b" in the text "{X}" terminates
with the single expansion "a{X}b", and the fuel-bounded loop confirms it
within 3 iterations. -/
theorem replaceToken_spec_witness :
    replaceTokenFuel "{X}".data "a{X}b".data ("{X}".data).length "{X}".data =
      some (replaceToken "{X}".data "{X}".data "a{X}b".data) ∧
    replaceToken "{X}".data "{X}".data "a{X}b".data = "a{X}b".data := by
  have h := replaceToken_spec "{X}".data "a{X}b".data "{X}".data (by decide)
  exact ⟨h.1, h.2.1⟩

/-- C8: with verbosity < 0.3 and a line longer than 60 characters, the
truncation step cuts at the last space at or before position 60 (removing
everything from that space onward) and appends an ellipsis exactly when the
50% Bernoulli draw succeeds; with verbosity ≥ 0.3 or a line of at most 60
characters it leaves the line unchanged. -/
theorem styleTruncate_spec (line : List Char) (profile : NPCVoiceProfile)
    (s : RngStream) :
    (profile.verbosity01 < mkRat 3 10 → 60 < line.length →
      ∀ cutPos, rfindCharLe line ' ' 60 = some cutPos →
        (line.get? cutPos = some ' ' ∧ cutPos ≤ 60 ∧
          ∀ j, j ≤ 60 → line.get? j = some ' ' → j ≤ cutPos) ∧
        (styleTruncate line profile s).1 =
          (if (rngChance (mkRat 1 2) s).1 then line.take cutPos ++ "...".data
           else line.take cutPos)) ∧
    ((mkRat 3 10 ≤ profile.verbosity01 ∨ line.length ≤ 60) →
      (styleTruncate line profile s).1 = line) := by
  constructor
  · intro hverb hlen cutPos hfind
    refine ⟨rfindCharLe_spec line ' ' 60 cutPos hfind, ?_⟩
    simp only [styleTruncate, if_pos hverb, if_pos hlen, hfind]
  · intro h
    rcases h with hverb | hlen
    · simp only [styleTruncate, if_neg (not_lt.mpr hverb)]
    · by_cases hverb : profile.verbosity01 < mkRat 3 10
      · simp only [styleTruncate, if_pos hverb, if_neg (not_lt.mpr hlen)]
      · simp only [styleTruncate, if_neg hverb]

/-- C8 witness: a 70-character line (single space at position 30) under a
verbosity-0 profile truncates to its first 30 characters plus the ellipsis
when the draw succeeds, while the default profile leaves it unchanged. -/
theorem styleTruncate_spec_witness :
    (styleTruncate (List.replicate 30 'a' ++ ' ' :: List.replicate 39 'b')
        terseProfile { bools := [true] }).1 =
      List.replicate 30 'a' ++ "...".data ∧
    (styleTruncate (List.replicate 30 'a' ++ ' ' :: List.replicate 39 'b')
        {} { bools := [true] }).1 =
      List.replicate 30 'a' ++ ' ' :: List.replicate 39 'b' := by
  constructor
  · have h := ((styleTruncate_spec
      (List.replicate 30 'a' ++ ' ' :: List.replicate 39 'b')
      terseProfile { bools := [true] }).1 (by decide) (by decide) 30
      (by decide)).2
    rw [h]
    decide
  · exact (styleTruncate_spec
      (List.replicate 30 'a' ++ ' ' :: List.replicate 39 'b')
      {} { bools := [true] }).2 (Or.inl (by decide))

/-- The five bracketed placeholders recognized by the realizer. -/
def recognizedTokens : List (List Char) :=
  [ "{PLAYER_CALLSIGN}".data, "{LOCAL_SPIRIT}".data, "{TABOO}".data,
    "{PLACE}".data, "{BODYSYMPTOM}".data ]

/-- C9: the token-substitution phase is the identity on any text containing
no occurrence of any recognized placeholder, for every context and profile. -/
theorem realizeSubst_id_of_no_tokens (text : List Char) (ctx : DialogueContext)
    (profile : NPCVoiceProfile)
    (h : ∀ tok ∈ recognizedTokens, hasSubstring tok text = false) :
    realizeSubst text ctx profile = text := by
  simp only [realizeSubst]
  rw [replaceToken_no_occurrence _ (h _ (by simp [recognizedTokens])),
    replaceToken_no_occurrence _ (h _ (by simp [recognizedTokens])),
    replaceToken_no_occurrence _ (h _ (by simp [recognizedTokens])),
    replaceToken_no_occurrence _ (h _ (by simp [recognizedTokens])),
    replaceToken_no_occurrence _ (h _ (by simp [recognizedTokens]))]

/-- C9 witness: a token-free text passes through substitution unchanged. -/
theorem realizeSubst_id_witness :
    realizeSubst "The trees remember.".data {} {} = "The trees remember.".data :=
  realizeSubst_id_of_no_tokens "The trees remember.".data {} {} (by decide)

/-- C10 counterexample: for the space-led 62-character template, a failed
ellipsis draw makes truncation empty the line, and the superstitious
fragment step then reads the last character of the empty line — the claim
that this read never happens is false on the code. -/
theorem style_reads_empty_line_example :
    (realizeTemplate spaceLeadTemplate {}
      { npcId := "n", verbosity01 := 0, superstition01 := 1, fatalism01 := 0,
        bureaucratic01 := 0 }
      { bools := [false, true] }).2.2 = true := by
  decide

/-- C10 (amended): for every template whose substituted line is non-empty
and does not begin with a space, the style pass never reads the last
character of an empty string: the truncation step cannot empty such a line,
and each later step preserves non-emptiness. -/
theorem style_no_empty_read_of_head_not_space (t : DialogueTemplate)
    (ctx : DialogueContext) (profile : NPCVoiceProfile) (s : RngStream)
    (htext : t.text ≠ [])
    (hne : realizeSubst t.text ctx profile ≠ [])
    (hhead : (realizeSubst t.text ctx profile).head? ≠ some ' ') :
    (realizeTemplate t ctx profile s).2.2 = false := by
  rw [realizeTemplate]
  exact applyStyleNoise_flag profile t.function s hne hhead

/-- C10 amendment witness: a short template is styled without any read of
an empty line's last character. -/
theorem style_no_empty_read_witness :
    (realizeTemplate painTemplate {}
      { npcId := "n", verbosity01 := 0, superstition01 := 1, fatalism01 := 0,
        bureaucratic01 := 0 }
      { bools := [true] }).2.2 = false :=
  style_no_empty_read_of_head_not_space painTemplate {}
    { npcId := "n", verbosity01 := 0, superstition01 := 1, fatalism01 := 0,
      bureaucratic01 := 0 }
    { bools := [true] } (by decide) (by decide) (by decide)

end Loreway
